import Mathlib

/-!
Verification of the jet_raiders game-server core against its specification.

The Rust source is shallowly embedded: `f32` values that the verified
properties depend on only through order comparisons and exact arithmetic are
modelled as `ℚ`; `u64` as `ℕ` (with explicit `% 2^64` where wrapping matters);
`i32` hp/damage as `ℤ`; `Duration` as nanoseconds in `ℕ`.  The transcendental
`f32::sin`/`f32::cos` are modelled by an abstract `Trig` oracle: the theorems
hold for every oracle, hence in particular for the real `f32` functions.
`SystemTime::now()` reads are modelled by an oracle `env : ℕ → ℕ` (micros per
read) with a read counter threaded through the simulation.
-/

/-- Player intent, from `domain/state.rs` (`PlayerInput`).  Worker-side inputs
are finite after sanitization, so `ℚ` models the `f32` fields exactly. -/
structure PlayerInput where
  thrust : ℚ
  turn : ℚ
  shoot : Bool
deriving DecidableEq

/-- Simulation entity (ship), from `domain/state.rs` (`SimEntity`). -/
structure SimEntity where
  id : ℕ
  x : ℚ
  y : ℚ
  rot : ℚ
  hp : ℤ
  alive : Bool
  respawn_timer : ℚ
  throttle : ℚ
  last_input : PlayerInput
  shoot_cooldown : ℚ
deriving DecidableEq

/-- Simulation projectile, from `domain/state.rs` (`SimProjectile`). -/
structure SimProjectile where
  id : ℕ
  owner_id : ℕ
  x : ℚ
  y : ℚ
  rot : ℚ
  vx : ℚ
  vy : ℚ
  ttl : ℚ
deriving DecidableEq

/-- Wire-facing entity snapshot, from `domain/state.rs` (`EntitySnapshot`). -/
structure EntitySnapshot where
  id : ℕ
  x : ℚ
  y : ℚ
  rot : ℚ
  hp : ℤ
deriving DecidableEq

/-- Wire-facing projectile snapshot, from `domain/state.rs`
(`ProjectileSnapshot`). -/
structure ProjectileSnapshot where
  id : ℕ
  owner_id : ℕ
  x : ℚ
  y : ℚ
  rot : ℚ
deriving DecidableEq

/-- `impl From<&SimEntity> for EntitySnapshot` in `domain/state.rs`. -/
def EntitySnapshot.ofEntity (e : SimEntity) : EntitySnapshot :=
  { id := e.id, x := e.x, y := e.y, rot := e.rot, hp := e.hp }

/-- `impl From<&SimProjectile> for ProjectileSnapshot` in `domain/state.rs`. -/
def ProjectileSnapshot.ofProjectile (p : SimProjectile) : ProjectileSnapshot :=
  { id := p.id, owner_id := p.owner_id, x := p.x, y := p.y, rot := p.rot }

/-- Worker input events, from `use_cases/types.rs` (`GameEvent`). -/
inductive GameEvent
  | Join (player_id : ℕ)
  | Leave (player_id : ℕ)
  | Input (player_id : ℕ) (input : PlayerInput)
deriving DecidableEq

/-- Lobby lifecycle states, from `use_cases/types.rs` (`ServerState`). -/
inductive ServerState
  | Lobby
  | MatchStarting (in_seconds : ℕ)
  | MatchRunning
  | MatchEnded
deriving DecidableEq

/-- Per-tick world snapshot, from `use_cases/types.rs` (`WorldUpdate`). -/
structure WorldUpdate where
  tick : ℕ
  entities : List EntitySnapshot
  projectiles : List ProjectileSnapshot
deriving DecidableEq

/-- Oracle standing for `f32::sin` and `f32::cos`; the verified properties are
independent of the trigonometric values. -/
structure Trig where
  sin : ℚ → ℚ
  cos : ℚ → ℚ

/-- Ship movement tuning, from `systems/movement.rs` (`MovementConfig`). -/
structure MovementConfig where
  max_speed : ℚ
  turn_rate : ℚ
  throttle_rate : ℚ
  min_x : ℚ
  max_x : ℚ
  min_y : ℚ
  max_y : ℚ

/-- `wrap_entity` in `systems/movement.rs`: teleport to the opposite edge when
leaving the world bounds. -/
def wrap_entity (e : SimEntity) (cfg : MovementConfig) : SimEntity :=
  let x := if e.x < cfg.min_x then cfg.max_x
           else if e.x > cfg.max_x then cfg.min_x else e.x
  let y := if e.y < cfg.min_y then cfg.max_y
           else if e.y > cfg.max_y then cfg.min_y else e.y
  { e with x := x, y := y }

/-- `tick_entity` in `systems/movement.rs`: rotation, throttle (clamped into
`[0,1]` as in `f32::clamp`), velocity from the forward vector, position
integration and world wrap. -/
def tick_entity (tr : Trig) (e : SimEntity) (dt : ℚ) (cfg : MovementConfig) : SimEntity :=
  let rot := e.rot + e.last_input.turn * cfg.turn_rate * dt
  let throttle := min 1 (max 0 (e.throttle + e.last_input.thrust * cfg.throttle_rate * dt))
  let dir_x := tr.sin rot
  let dir_y := -(tr.cos rot)
  let vel_x := dir_x * throttle * cfg.max_speed
  let vel_y := dir_y * throttle * cfg.max_speed
  wrap_entity
    { e with rot := rot, throttle := throttle,
             x := e.x + vel_x * dt, y := e.y + vel_y * dt } cfg

/-- Projectile tuning, from `systems/projectiles.rs` (`ProjectileConfig`). -/
structure ProjectileConfig where
  speed : ℚ
  ttl : ℚ
  radius : ℚ
  damage : ℤ
  cooldown : ℚ
  player_radius : ℚ
  respawn_delay : ℚ

/-- The hit branch of the collision loop in `tick_projectiles`
(`systems/projectiles.rs` lines 78-85): subtract damage, and on reaching 0 or
below clamp hp to 0 and mark the entity dead in the same step. -/
def applyHit (cfg : ProjectileConfig) (e : SimEntity) : SimEntity :=
  let hp := e.hp - cfg.damage
  if hp ≤ 0 then
    { e with hp := 0, alive := false, respawn_timer := cfg.respawn_delay,
             throttle := 0, shoot_cooldown := 0 }
  else
    { e with hp := hp }

/-- The circle test guarding the hit branch in `tick_projectiles`: alive,
non-owner, and within `player_radius + radius`. -/
def hitTest (cfg : ProjectileConfig) (p : SimProjectile) (e : SimEntity) : Bool :=
  e.alive && e.id ≠ p.owner_id &&
    ((e.x - p.x) * (e.x - p.x) + (e.y - p.y) * (e.y - p.y)
      ≤ (cfg.player_radius + cfg.radius) * (cfg.player_radius + cfg.radius))

/-- Inner entity scan of the collision loop: apply the hit to the first
matching entity (insertion order) and stop, or report no hit. -/
def collideFirst (cfg : ProjectileConfig) (p : SimProjectile) :
    List SimEntity → Option (List SimEntity)
  | [] => none
  | e :: rest =>
    if hitTest cfg p e then some (applyHit cfg e :: rest)
    else (collideFirst cfg p rest).map (e :: ·)

/-- Outer collision loop of `tick_projectiles`: skip expired projectiles; a
projectile that hits is given `ttl = 0`. Threads the entity list through. -/
def collideProjectiles (cfg : ProjectileConfig) :
    List SimProjectile → List SimEntity → List SimEntity × List SimProjectile
  | [], es => (es, [])
  | p :: rest, es =>
    if p.ttl ≤ 0 then
      let r := collideProjectiles cfg rest es
      (r.1, p :: r.2)
    else
      match collideFirst cfg p es with
      | some es' =>
        let r := collideProjectiles cfg rest es'
        (r.1, { p with ttl := 0 } :: r.2)
      | none =>
        let r := collideProjectiles cfg rest es
        (r.1, p :: r.2)

/-- One entity of the spawn loop in `tick_projectiles`: tick the cooldown down
(floored at 0) and, if shooting with an elapsed cooldown, emit a projectile and
reset the cooldown.  Projectile ids wrap at `2^64` (`u64::wrapping_add`). -/
def spawnStep (cfg : ProjectileConfig) (dt : ℚ) (tr : Trig) (e : SimEntity)
    (next_id : ℕ) : SimEntity × Option SimProjectile × ℕ :=
  if !e.alive then (e, none, next_id)
  else
    let cd := max (e.shoot_cooldown - dt) 0
    if e.last_input.shoot && decide (cd ≤ 0) then
      let dir_x := tr.sin e.rot
      let dir_y := -(tr.cos e.rot)
      ({ e with shoot_cooldown := cfg.cooldown },
       some { id := next_id, owner_id := e.id,
              x := e.x + dir_x * cfg.player_radius,
              y := e.y + dir_y * cfg.player_radius,
              rot := e.rot,
              vx := dir_x * cfg.speed, vy := dir_y * cfg.speed,
              ttl := cfg.ttl },
       (next_id + 1) % 2 ^ 64)
    else
      ({ e with shoot_cooldown := cd }, none, next_id)

/-- The spawn loop of `tick_projectiles` over all entities, collecting newly
pushed projectiles in entity order. -/
def spawnProjectiles (cfg : ProjectileConfig) (dt : ℚ) (tr : Trig) :
    List SimEntity → ℕ → List SimEntity × List SimProjectile × ℕ
  | [], next_id => ([], [], next_id)
  | e :: rest, next_id =>
    let s := spawnStep cfg dt tr e next_id
    let r := spawnProjectiles cfg dt tr rest s.2.2
    (s.1 :: r.1, s.2.1.toList ++ r.2.1, r.2.2)

/-- Projectile integration in `tick_projectiles`:
`x += vx*dt; y += vy*dt; ttl -= dt`. -/
def integrateProjectile (dt : ℚ) (p : SimProjectile) : SimProjectile :=
  { p with x := p.x + p.vx * dt, y := p.y + p.vy * dt, ttl := p.ttl - dt }

/-- `tick_projectiles` in `systems/projectiles.rs`: spawn, integrate, collide,
then retain projectiles with `ttl > 0`. -/
def tick_projectiles (cfg : ProjectileConfig) (dt : ℚ) (tr : Trig)
    (entities : List SimEntity) (projectiles : List SimProjectile)
    (next_projectile_id : ℕ) : List SimEntity × List SimProjectile × ℕ :=
  let sp := spawnProjectiles cfg dt tr entities next_projectile_id
  let moved := (projectiles ++ sp.2.1).map (integrateProjectile dt)
  let col := collideProjectiles cfg moved sp.1
  (col.1, col.2.filter (fun p => 0 < p.ttl), sp.2.2)

/-- Configuration of `world_task` (`use_cases/game.rs`): the tick interval both
as a `Duration` in nanoseconds (match-time bookkeeping) and as the `f32`
seconds value `dt` used by the physics, movement and projectile tuning, the
player max hp / respawn tuning, and the trig oracle. -/
structure WorldCfg where
  dt : ℚ
  tick_interval_ns : ℕ
  match_time_limit_ns : ℕ
  movement : MovementConfig
  projectile : ProjectileConfig
  player_max_hp : ℤ
  trig : Trig

/-- Mutable loop state of `world_task` (`use_cases/game.rs` lines 19-50). -/
structure WorldState where
  tick : ℕ
  entities : List SimEntity
  projectiles : List SimProjectile
  next_projectile_id : ℕ
  match_elapsed_ns : ℕ
  match_ended : Bool
deriving DecidableEq

/-- Initial `world_task` state: `tick = 0`, no entities or projectiles,
`next_projectile_id = 1`, zero elapsed time, match not ended. -/
def initialWorldState : WorldState :=
  { tick := 0, entities := [], projectiles := [], next_projectile_id := 1,
    match_elapsed_ns := 0, match_ended := false }

/-- The neutral `PlayerInput` a freshly spawned or respawned entity gets. -/
def neutralInput : PlayerInput := { thrust := 0, turn := 0, shoot := false }

/-- One event of the drain loop in `world_task` (lines 70-108).  `Join` reads
`SystemTime::now()` (micros, via the oracle `env` at the read counter `clk`)
and unconditionally pushes a fresh entity; `Leave` retains entities and
projectiles not owned by the player; `Input` stores the input on the first
entity with a matching id. -/
def applyEvent (cfg : WorldCfg) (env : ℕ → ℕ) :
    List SimEntity × List SimProjectile × ℕ → GameEvent →
    List SimEntity × List SimProjectile × ℕ
  | (es, ps, clk), .Join player_id =>
    let now := env clk
    (es ++ [{ id := player_id,
              x := ((now % 800 : ℕ) : ℚ) - 400,
              y := ((now % 460 : ℕ) : ℚ) - 230,
              rot := 0, hp := cfg.player_max_hp, alive := true,
              respawn_timer := 0, throttle := 0,
              last_input := neutralInput, shoot_cooldown := 0 }],
     ps, clk + 1)
  | (es, ps, clk), .Leave player_id =>
    (es.filter (fun e => e.id ≠ player_id),
     ps.filter (fun p => p.owner_id ≠ player_id), clk)
  | (es, ps, clk), .Input player_id input =>
    (updateFirstInput es player_id input, ps, clk)
where
  /-- `entities.iter_mut().find(|e| e.id == player_id)` followed by
  `e.last_input = input`: only the first match is updated. -/
  updateFirstInput : List SimEntity → ℕ → PlayerInput → List SimEntity
    | [], _, _ => []
    | e :: rest, player_id, input =>
      if e.id = player_id then { e with last_input := input } :: rest
      else e :: updateFirstInput rest player_id input

/-- The `while let Ok(ev) = input_rx.try_recv()` drain loop over the events
pending this tick, in arrival order. -/
def drainEvents (cfg : WorldCfg) (env : ℕ → ℕ) (events : List GameEvent)
    (s : List SimEntity × List SimProjectile × ℕ) :
    List SimEntity × List SimProjectile × ℕ :=
  events.foldl (applyEvent cfg env) s

/-- Per-entity advancement in `world_task` (lines 121-149): dead entities tick
their respawn timer and respawn at a time-derived position with full hp and
neutral state once it reaches 0; alive entities run the ship physics. -/
def advanceEntity (cfg : WorldCfg) (env : ℕ → ℕ) (e : SimEntity) (clk : ℕ) :
    SimEntity × ℕ :=
  if e.alive then (tick_entity cfg.trig e cfg.dt cfg.movement, clk)
  else
    let timer := e.respawn_timer - cfg.dt
    if timer ≤ 0 then
      let now := env clk
      ({ e with x := ((now % 800 : ℕ) : ℚ) - 400,
                y := ((now % 460 : ℕ) : ℚ) - 230,
                rot := 0, hp := cfg.player_max_hp, alive := true,
                respawn_timer := 0, throttle := 0, shoot_cooldown := 0,
                last_input := neutralInput }, clk + 1)
    else ({ e with respawn_timer := timer }, clk)

/-- The `for e in &mut entities` loop of `world_task`, threading the
time-oracle read counter. -/
def advanceEntities (cfg : WorldCfg) (env : ℕ → ℕ) :
    List SimEntity → ℕ → List SimEntity × ℕ
  | [], clk => ([], clk)
  | e :: rest, clk =>
    let a := advanceEntity cfg env e clk
    let r := advanceEntities cfg env rest a.2
    (a.1 :: r.1, r.2)

/-- One iteration of the `world_task` tick loop (`use_cases/game.rs` lines
52-182) in which the interval fires (no shutdown): match-time bookkeeping,
event drain, entity advancement, projectile tick, then `tick` increments and a
`WorldUpdate` with the alive entities and retained projectiles is published. -/
def world_task_step (cfg : WorldCfg) (env : ℕ → ℕ) (events : List GameEvent)
    (st : WorldState) (clk : ℕ) : WorldState × ℕ × WorldUpdate :=
  let timing :=
    if !st.match_ended && cfg.match_time_limit_ns ≠ 0 then
      let elapsed := st.match_elapsed_ns + cfg.tick_interval_ns
      (elapsed, decide (cfg.match_time_limit_ns ≤ elapsed))
    else (st.match_elapsed_ns, st.match_ended)
  let drained := drainEvents cfg env events (st.entities, st.projectiles, clk)
  let adv := advanceEntities cfg env drained.1 drained.2.2
  let proj := tick_projectiles cfg.projectile cfg.dt cfg.trig adv.1 drained.2.1
    st.next_projectile_id
  let tick := st.tick + 1
  let upd : WorldUpdate :=
    { tick := tick,
      entities := (proj.1.filter (fun e => e.alive)).map EntitySnapshot.ofEntity,
      projectiles := proj.2.1.map ProjectileSnapshot.ofProjectile }
  ({ tick := tick, entities := proj.1, projectiles := proj.2.1,
     next_projectile_id := proj.2.2,
     match_elapsed_ns := timing.1, match_ended := timing.2 }, adv.2, upd)

/-- A finite run of the `world_task` loop: one `world_task_step` per interval
tick, fed the events drained on that tick; collects the published updates. -/
def world_task_run (cfg : WorldCfg) (env : ℕ → ℕ) :
    List (List GameEvent) → WorldState → ℕ → WorldState × ℕ × List WorldUpdate
  | [], st, clk => (st, clk, [])
  | evs :: rest, st, clk =>
    let s := world_task_step cfg env evs st clk
    let r := world_task_run cfg env rest s.1 s.2.1
    (r.1, r.2.1, s.2.2 :: r.2.2)

/-- True exactly on `ServerState::MatchEnded` (the `matches!` checks in
`use_cases/lobby.rs`). -/
def ServerState.isMatchEnded : ServerState → Bool
  | .MatchEnded => true
  | _ => false

/-- The registry-relevant slice of a `LobbyEntry`/`LobbyHandle`
(`use_cases/lobby.rs`): pin flag, the `active_connections` counter, and the
value currently held by the lobby's `server_state` watch channel. -/
structure LobbyEntry where
  is_pinned : Bool
  active_connections : ℕ
  server_state : ServerState
deriving DecidableEq

/-- The `lobbies` map of `LobbyRegistry`, as an association list keyed by
lobby id (iteration order of the `HashMap` is never observed). -/
abbrev LobbyMap := List (String × LobbyEntry)

/-- `lobbies.get(lobby_id)`. -/
def lookupLobby (reg : LobbyMap) (lobby_id : String) : Option LobbyEntry :=
  reg.lookup lobby_id

/-- `lobbies.remove(lobby_id)`. -/
def removeLobby (reg : LobbyMap) (lobby_id : String) : LobbyMap :=
  reg.filter (fun kv => kv.1 ≠ lobby_id)

/-- Store a new entry value under an existing key. -/
def updateLobby (reg : LobbyMap) (lobby_id : String) (entry : LobbyEntry) : LobbyMap :=
  reg.map (fun kv => if kv.1 = lobby_id then (kv.1, entry) else kv)

/-- `LobbyRegistry::register_disconnect` (`use_cases/lobby.rs` lines 208-250):
decrement `active_connections` saturating at 0 (the CAS loop); if the
resulting count is 0, the lobby is not pinned, and the current server state is
`MatchEnded`, fire the shutdown signal and remove the entry.  The returned
flag records that the entry was removed and its shutdown signal fired. -/
def register_disconnect (reg : LobbyMap) (lobby_id : String) : LobbyMap × Bool :=
  match lookupLobby reg lobby_id with
  | none => (reg, false)
  | some entry =>
    let remaining := entry.active_connections - 1
    if remaining = 0 && !entry.is_pinned && entry.server_state.isMatchEnded then
      (removeLobby reg lobby_id, true)
    else
      (updateLobby reg lobby_id { entry with active_connections := remaining }, false)

/-- `LobbyRegistry::cleanup_if_empty_on_match_end` (`use_cases/lobby.rs` lines
252-270): never removes a pinned lobby; removes the entry and fires shutdown
when the connection count is 0. -/
def cleanup_if_empty_on_match_end (reg : LobbyMap) (lobby_id : String) : LobbyMap × Bool :=
  match lookupLobby reg lobby_id with
  | none => (reg, false)
  | some entry =>
    if entry.is_pinned then (reg, false)
    else if entry.active_connections = 0 then (removeLobby reg lobby_id, true)
    else (reg, false)

/-- One firing of the match-end watcher spawned by `spawn_match_end_watcher`
(`use_cases/lobby.rs` lines 165-187): it observes the lobby's server-state
watch channel (modelled by the entry's `server_state`, the single source of
that channel's value) and calls the cleanup only on `MatchEnded`. -/
def match_end_watcher_step (reg : LobbyMap) (lobby_id : String) : LobbyMap × Bool :=
  match lookupLobby reg lobby_id with
  | none => (reg, false)
  | some entry =>
    if entry.server_state.isMatchEnded then cleanup_if_empty_on_match_end reg lobby_id
    else (reg, false)

/-- Connection-handler error taxonomy, from `net/client.rs` (`NetError`); the
`Ws`/`Serialization` payloads carry no information the claims need. -/
inductive NetError
  | Ws
  | Serialization
  | InputClosed
  | WorldUpdatesClosed
  | ServerStateClosed
  | JoinRequired
  | JoinTimeout
  | AuthVerify
  | ClosedBeforeJoin
deriving DecidableEq

/-- `LoopControl` in `net/client.rs`. -/
inductive LoopControl
  | Continue
  | Disconnect
deriving DecidableEq

/-- An `f32` as the net layer sees it: a finite value (exact in `ℚ`) or one of
the non-finite classes. -/
inductive F32
  | finite (val : ℚ)
  | nan
  | posInf
  | negInf
deriving DecidableEq

/-- `f32::is_finite`. -/
def F32.isFinite : F32 → Bool
  | .finite _ => true
  | _ => false

/-- `f32::clamp(lo, hi)` for finite `lo ≤ hi`: NaN propagates, infinities pin
to the corresponding bound, finite values clamp exactly. -/
def F32.clamp (x : F32) (lo hi : ℚ) : F32 :=
  match x with
  | .finite v => .finite (min hi (max lo v))
  | .nan => .nan
  | .posInf => .finite hi
  | .negInf => .finite lo

/-- Decidable check that an `F32` is finite and lies within `[lo, hi]`. -/
def F32.finiteWithin (x : F32) (lo hi : ℚ) : Bool :=
  match x with
  | .finite v => decide (lo ≤ v) && decide (v ≤ hi)
  | _ => false

/-- A raw `PlayerInput` as decoded from the socket, before sanitization: the
`f32` fields may be non-finite. -/
structure PlayerInputRaw where
  thrust : F32
  turn : F32
  shoot : Bool
deriving DecidableEq

/-- `sanitize_input` in `net/client.rs` (lines 520-529): reject (drop) any
input whose thrust or turn is non-finite, then clamp both into `[-1, 1]`. -/
def sanitize_input (input : PlayerInputRaw) : Option PlayerInputRaw :=
  if !input.thrust.isFinite || !input.turn.isFinite then none
  else some { input with thrust := input.thrust.clamp (-1) 1,
                         turn := input.turn.clamp (-1) 1 }

/-- Outcome of `input_tx.try_send` on the worker's bounded input sink. -/
inductive SendOutcome
  | ok
  | full
  | closed
deriving DecidableEq

/-- `process_input_message` in `net/client.rs` (lines 532-556).  Returns the
input payload of the `GameEvent::Input` actually forwarded into the worker's
sink (`none` when the input was dropped: failed sanitization or a full
channel), and the loop outcome (`InputClosed` is fatal). -/
def process_input_message (send : SendOutcome) (input : PlayerInputRaw) :
    Option PlayerInputRaw × Except NetError LoopControl :=
  match sanitize_input input with
  | none => (none, .ok .Continue)
  | some sanitized =>
    match send with
    | .ok => (some sanitized, .ok .Continue)
    | .full => (none, .ok .Continue)
    | .closed => (none, .error .InputClosed)

/-- Modelled from the spec: `LobbyHandle::unregister_player_connection_if_owner`
is called from `net/client.rs` but its definition is not in the sources; §4.2
specifies that it removes the `player_id → conn_token` mapping only when the
stored owner token matches the caller's token. -/
def unregister_player_connection_if_owner (slot : Option ℕ) (conn_token : ℕ) : Option ℕ :=
  match slot with
  | some owner => if owner = conn_token then none else some owner
  | none => none

/-- Which cleanup effects `disconnect_cleanup` performed: whether
`Leave{player_id}` reached the worker sink, whether
`LobbyRegistry::register_disconnect` was called, and the player-connection
slot after the (attempted) release. -/
structure CleanupEffects where
  leave_sent : Bool
  register_disconnect_called : Bool
  slot_after : Option ℕ
deriving DecidableEq

/-- The tail of `disconnect_cleanup` after the `Leave` send: the
`register_disconnect` call (when registered) followed by the conditional
player-connection slot release. -/
def cleanup_rest (eff : CleanupEffects) (registered : Bool) (conn_token : ℕ) :
    CleanupEffects × Option NetError :=
  let eff := { eff with register_disconnect_called := registered }
  ({ eff with slot_after := unregister_player_connection_if_owner eff.slot_after conn_token },
   none)

/-- `disconnect_cleanup` in `net/client.rs` (lines 893-939).  `input_closed`
says whether the worker's input channel is closed; `slot` is the current
per-player connection slot.  The `?` on
`input_tx.send(GameEvent::Leave).await.map_err(InputClosed)` returns before
the registry call and the slot release when the channel is closed. -/
def disconnect_cleanup (conn_token : ℕ) (can_spawn registered : Bool)
    (input_closed : Bool) (slot : Option ℕ) : CleanupEffects × Option NetError :=
  let eff : CleanupEffects :=
    { leave_sent := false, register_disconnect_called := false, slot_after := slot }
  if can_spawn then
    if input_closed then (eff, some NetError.InputClosed)
    else cleanup_rest { eff with leave_sent := true } registered conn_token
  else cleanup_rest eff registered conn_token

/-- Verified identity payload, from `clients/auth.rs` (`VerifiedIdentity`). -/
structure VerifiedIdentity where
  user_id : ℕ
  display_name : String
  session_id : String
  expires_at : ℕ
deriving DecidableEq

/-- Error classification of `verify_token`, from `clients/auth.rs`
(`VerifyTokenError`). -/
inductive VerifyTokenError
  | InvalidToken
  | SessionExpired
  | UpstreamUnavailable
deriving DecidableEq

/-- An HTTP response as `AuthClient::verify_token` observes it: the status
code, the result of parsing the body as `VerifiedIdentity`, and the result of
parsing it as the 401 `ErrorResponse` (its `message` field). -/
structure HttpResponse where
  status : ℕ
  identity_body : Option VerifiedIdentity
  error_message : Option String
deriving DecidableEq

/-- `reqwest::StatusCode::is_success`: status in `200..=299`. -/
def status_is_success (status : ℕ) : Bool :=
  200 ≤ status && status ≤ 299

/-- `AuthClient::verify_token` in `clients/auth.rs` (lines 47-78), over the
outcome of the POST (`Except.error` being any transport failure or timeout
from `send().await`). -/
def verify_token : Except Unit HttpResponse → Except VerifyTokenError VerifiedIdentity
  | .error _ => .error .UpstreamUnavailable
  | .ok response =>
    if status_is_success response.status then
      match response.identity_body with
      | some identity => .ok identity
      | none => .error .UpstreamUnavailable
    else if response.status = 401 then
      match response.error_message with
      | some message =>
        if message = "session expired" then .error .SessionExpired
        else .error .InvalidToken
      | none => .error .UpstreamUnavailable
    else .error .UpstreamUnavailable

/-- The error classification of `verify_token` as the specification words it
(§4.1), with the 401 cases listed first as in the spec. -/
def verify_token_spec : Except Unit HttpResponse → Except VerifyTokenError VerifiedIdentity
  | .error _ => .error .UpstreamUnavailable
  | .ok response =>
    if response.status = 401 then
      match response.error_message with
      | some "session expired" => .error .SessionExpired
      | some _ => .error .InvalidToken
      | none => .error .UpstreamUnavailable
    else if status_is_success response.status then
      match response.identity_body with
      | some identity => .ok identity
      | none => .error .UpstreamUnavailable
    else .error .UpstreamUnavailable

/-- Minimal JSON term model for the wire protocol. -/
inductive Json
  | str (s : String)
  | num (n : ℤ)
  | bool (b : Bool)
  | arr (items : List Json)
  | obj (fields : List (String × Json))

/-- True exactly on a JSON number. -/
def Json.isNum : Json → Bool
  | .num _ => true
  | _ => false

/-- Field lookup on a JSON object. -/
def Json.getField : Json → String → Option Json
  | .obj fields, key => fields.lookup key
  | _, _ => none

/-- The wire encoding of `ServerMessage::Identity` (`protocol.rs` lines 9-18:
`#[serde(tag = "type", content = "data")]` with `player_id: String`), built in
`bootstrap_connection` as `player_id.to_string()` (`net/client.rs` lines
310-314): the id is serialized as a decimal JSON string. -/
def identity_wire_json (player_id : ℕ) : Json :=
  .obj [("type", .str "Identity"),
        ("data", .obj [("player_id", .str (toString player_id))])]

/-- The `data.player_id` field of the encoded Identity message. -/
def identity_player_id_field (player_id : ℕ) : Option Json :=
  ((identity_wire_json player_id).getField "data").bind (fun d => d.getField "player_id")

/-- Server-to-client messages, from `protocol.rs` (`ServerMessage`); the
`WorldUpdate` variant is reached only through the bytes broadcast. -/
inductive ServerMsg
  | Identity (player_id : String)
  | GameState (state : ServerState)
  | WorldUpdateMsg (update : WorldUpdate)
deriving DecidableEq

/-- True exactly on the `Identity` variant. -/
def ServerMsg.isIdentity : ServerMsg → Bool
  | .Identity _ => true
  | _ => false

/-- The server messages `bootstrap_connection` sends on its success path
(`net/client.rs` lines 310-361): the Identity message with the stringified
player id, then the initial `GameState`. -/
def bootstrap_msgs (player_id : ℕ) (initial_state : ServerState) : List ServerMsg :=
  [.Identity (toString player_id), .GameState initial_state]

/-- The outbound sources of `run_client_loop`: world-update bytes from the
broadcast (or the latest slot during lag recovery) and server-state changes. -/
inductive LoopOut
  | world (update : WorldUpdate)
  | state (state : ServerState)

/-- The server message `run_client_loop` sends for one outbound source firing:
`forward_world_bytes` forwards serialized `WorldUpdate`s, `forward_server_state`
sends a `GameState`; the loop never sends an Identity message. -/
def loop_out_msg : LoopOut → ServerMsg
  | .world update => .WorldUpdateMsg update
  | .state state => .GameState state

/-- All `ServerMessage`s sent on a connection whose bootstrap succeeded:
the bootstrap messages followed by the main-loop forwards. -/
def connection_msgs (player_id : ℕ) (initial_state : ServerState)
    (outs : List LoopOut) : List ServerMsg :=
  bootstrap_msgs player_id initial_state ++ outs.map loop_out_msg

/-- The value `create_lobby` (`use_cases/lobby.rs` line 118) installs in the
latest-snapshot-bytes watch channel: `Utf8Bytes::from("")`. -/
def lobby_initial_latest_bytes : String := ""

/-- The `Lagged` arm of the world-bytes branch in `run_client_loop`
(`net/client.rs` lines 623-656): read the latest-bytes slot; when it is empty
send nothing and continue; otherwise forward it, disconnecting only if the
socket send fails (`send_ok = false`). -/
def handle_world_lagged (latest : String) (send_ok : Bool) :
    Option String × LoopControl :=
  if latest.isEmpty then (none, .Continue)
  else (some latest, if send_ok then .Continue else .Disconnect)

/-- `TICK_INTERVAL` in `frameworks/config.rs` line 26:
`Duration::from_millis(1000 / 60)` with Rust integer division, in
nanoseconds. -/
def TICK_INTERVAL_ns : ℕ := (1000 / 60) * 1000000

/-- `TICK_INTERVAL` as a number of seconds. -/
def tick_interval_seconds : ℚ := (TICK_INTERVAL_ns : ℚ) / 1000000000

/-- A concrete trig oracle for evaluating the model on examples. -/
def exTrig : Trig := { sin := fun _ => 0, cos := fun _ => 1 }

/-- The movement tuning used by `world_task` with the `PlayerTuning` defaults
(`tuning/player.rs`) and the bounds hard-coded in `use_cases/game.rs`. -/
def exMovement : MovementConfig :=
  { max_speed := 150, turn_rate := 3, throttle_rate := 2,
    min_x := -400, max_x := 400, min_y := -230, max_y := 230 }

/-- The projectile config `world_task` builds from `ProjectileTuning::default()`
and `PlayerTuning::default()` (`tuning/projectile.rs`, `tuning/player.rs`);
`max_hp`/`respawn_seconds` are modelled from the spec (defaults 100 / positive)
since `domain/tuning` is not among the sources. -/
def exProjectileCfg : ProjectileConfig :=
  { speed := 500, ttl := 3, radius := 5, damage := 30, cooldown := 1 / 10,
    player_radius := 24, respawn_delay := 3 }

/-- A concrete world configuration for evaluating the model (dt chosen as 1 to
keep example arithmetic small; the theorems quantify over all configs). -/
def exWorldCfg : WorldCfg :=
  { dt := 1, tick_interval_ns := TICK_INTERVAL_ns, match_time_limit_ns := 0,
    movement := exMovement, projectile := exProjectileCfg,
    player_max_hp := 100, trig := exTrig }

/-- A concrete time oracle: every `SystemTime::now()` read returns 0 µs. -/
def exEnv : ℕ → ℕ := fun _ => 0

/-- Claim C9, code evaluation: `TICK_INTERVAL` is
`Duration::from_millis(1000 / 60)`; the integer division truncates to 16 ms
(16000000 ns), which is 2/125 s, not 1/60 s. -/
theorem tick_interval_is_16ms_not_one_sixtieth :
    TICK_INTERVAL_ns = 16000000 ∧ tick_interval_seconds = 2 / 125 ∧
      tick_interval_seconds ≠ 1 / 60 := by
  refine ⟨rfl, by norm_num [tick_interval_seconds, TICK_INTERVAL_ns],
    by norm_num [tick_interval_seconds, TICK_INTERVAL_ns]⟩

/-- Claim C2, code evaluation: with `can_spawn = true`, `registered = true` and
a closed worker input channel, `disconnect_cleanup` returns `InputClosed`
before calling `register_disconnect` and before releasing the player-connection
slot (token 7 still owns the slot afterwards). -/
theorem disconnect_cleanup_closed_channel_skips_registry_and_slot :
    disconnect_cleanup 7 true true true (some 7) =
      ({ leave_sent := false, register_disconnect_called := false,
         slot_after := some 7 }, some NetError.InputClosed) := rfl

/-- Claim C1, code evaluation: draining two `Join` events with the same
`player_id` pushes two entities with that id — the `Join` arm of `world_task`
has no duplicate check, so a second `Join` is not idempotent. -/
theorem duplicate_join_spawns_second_entity :
    ((drainEvents exWorldCfg exEnv [.Join 1, .Join 1] ([], [], 0)).1.countP
      (fun e => e.id == 1)) = 2 := by rfl

/-- Claim C3, counterexample: the encoded Identity message for `player_id = 42`
carries `data.player_id` as the JSON string `"42"`, which is not a JSON
number. -/
theorem identity_player_id_is_string_not_number :
    identity_player_id_field 42 = some (Json.str "42") ∧
      Json.isNum (Json.str "42") = false := ⟨rfl, rfl⟩

/-- Claim C3 as amended: the Identity message sent after a successful Join
carries `player_id` as a decimal JSON string, and it is the first server
message on the connection, sent exactly once. -/
theorem identity_is_first_exactly_once_as_string :
    ∀ (player_id : ℕ) (initial_state : ServerState) (outs : List LoopOut),
      (connection_msgs player_id initial_state outs).head? =
        some (.Identity (toString player_id)) ∧
      (connection_msgs player_id initial_state outs).countP ServerMsg.isIdentity = 1 ∧
      identity_player_id_field player_id = some (Json.str (toString player_id)) := by
  intro player_id initial_state outs
  refine ⟨rfl, ?_, rfl⟩
  have hmap : (outs.map loop_out_msg).countP ServerMsg.isIdentity = 0 := by
    rw [List.countP_eq_zero]
    intro m hm
    rcases List.mem_map.mp hm with ⟨o, _, rfl⟩
    cases o <;> simp [loop_out_msg, ServerMsg.isIdentity]
  simp [connection_msgs, bootstrap_msgs, List.countP_append, List.countP_cons,
    ServerMsg.isIdentity, hmap]

/-- Claim C10: on a lagged broadcast the handler forwards the latest-bytes
slot only when it is non-empty; with the empty string `create_lobby` installs,
nothing is sent and the loop continues without disconnecting. -/
theorem lag_recovery_skips_empty_latest :
    (∀ send_ok : Bool,
      handle_world_lagged lobby_initial_latest_bytes send_ok = (none, .Continue)) ∧
    (∀ (latest : String) (send_ok : Bool),
      (handle_world_lagged latest send_ok).1.isSome = true → latest.isEmpty = false) := by
  constructor
  · intro send_ok
    rfl
  · intro latest send_ok h
    by_cases he : latest.isEmpty
    · simp [handle_world_lagged, he] at h
    · exact Bool.not_eq_true _ ▸ (Bool.eq_false_iff.mpr he)

/-- Witness for `lag_recovery_skips_empty_latest` at the non-empty slot
`"x"`. -/
theorem lag_recovery_skips_empty_latest_witness :
    (handle_world_lagged "x" true).1.isSome = true ∧ ("x").isEmpty = false :=
  ⟨by decide, lag_recovery_skips_empty_latest.2 "x" true (by decide)⟩

/-- Claim C6: `verify_token` classifies every outcome exactly as the
specification states — for every transport outcome and response, the code's
classification coincides with the spec's clause-by-clause classification. -/
theorem verify_token_matches_spec_classification :
    ∀ r : Except Unit HttpResponse, verify_token r = verify_token_spec r := by
  intro r
  match r with
  | .error _ => rfl
  | .ok response =>
    by_cases h401 : response.status = 401
    · have hsucc : status_is_success 401 = false := by decide
      cases hm : response.error_message with
      | none => simp [verify_token, verify_token_spec, h401, hsucc, hm]
      | some m =>
        by_cases hse : m = "session expired"
        · simp [verify_token, verify_token_spec, h401, hsucc, hm, hse]
        · simp [verify_token, verify_token_spec, h401, hsucc, hm, hse]
    · simp [verify_token, verify_token_spec, h401]

theorem isMatchEnded_iff (s : ServerState) : s.isMatchEnded = true ↔ s = .MatchEnded := by
  cases s <;> simp [ServerState.isMatchEnded]

theorem lookup_updateLobby (reg : LobbyMap) (lobby_id : String) (entry : LobbyEntry) :
    lookupLobby (updateLobby reg lobby_id entry) lobby_id =
      (lookupLobby reg lobby_id).map (fun _ => entry) := by
  induction reg with
  | nil => rfl
  | cons kv rest ih =>
    obtain ⟨k, v⟩ := kv
    have hcons : updateLobby ((k, v) :: rest) lobby_id entry =
        (if k = lobby_id then (k, entry) else (k, v)) :: updateLobby rest lobby_id entry := rfl
    by_cases hk : k = lobby_id
    · subst hk
      simp only [lookupLobby, hcons, if_pos rfl]
      simp [List.lookup]
    · have hne : (lobby_id == k) = false := beq_eq_false_iff_ne.mpr (Ne.symm hk)
      simp only [lookupLobby, hcons]
      rw [if_neg hk]
      simp only [List.lookup, hne]
      exact ih

/-- Claim C7: on both removal paths — `register_disconnect` and the match-end
watcher's cleanup — a lobby entry is removed (with its shutdown signal fired)
only when the resulting connection count is 0, it is not pinned, and the
current server state is `MatchEnded`; and a pinned lobby is never removed by
either path. -/
theorem lobby_removed_only_when_empty_unpinned_match_ended
    (reg : LobbyMap) (lobby_id : String) (entry : LobbyEntry)
    (h : lookupLobby reg lobby_id = some entry) :
    ((register_disconnect reg lobby_id).2 = true →
      entry.active_connections - 1 = 0 ∧ entry.is_pinned = false ∧
        entry.server_state = .MatchEnded) ∧
    ((match_end_watcher_step reg lobby_id).2 = true →
      entry.active_connections = 0 ∧ entry.is_pinned = false ∧
        entry.server_state = .MatchEnded) ∧
    (entry.is_pinned = true →
      (lookupLobby (register_disconnect reg lobby_id).1 lobby_id).isSome = true ∧
      (lookupLobby (match_end_watcher_step reg lobby_id).1 lobby_id).isSome = true) := by
  refine ⟨?_, ?_, ?_⟩
  · intro hrem
    simp only [register_disconnect, h] at hrem
    split at hrem
    next hc =>
      simp only [Bool.and_eq_true, decide_eq_true_eq, Bool.not_eq_true',
        isMatchEnded_iff] at hc
      exact ⟨hc.1.1, hc.1.2, hc.2⟩
    next hc => simp at hrem
  · intro hrem
    simp only [match_end_watcher_step, h] at hrem
    split at hrem
    next hme =>
      simp only [cleanup_if_empty_on_match_end, h] at hrem
      split at hrem
      next hp => simp at hrem
      next hp =>
        split at hrem
        next hc =>
          exact ⟨hc, Bool.not_eq_true _ ▸ Bool.eq_false_iff.mpr hp,
            (isMatchEnded_iff _).mp hme⟩
        next hc => simp at hrem
    next hme => simp at hrem
  · intro hpin
    constructor
    · simp [register_disconnect, h, hpin, lookup_updateLobby]
    · by_cases hme : entry.server_state.isMatchEnded = true
      · simp [match_end_watcher_step, h, hme, cleanup_if_empty_on_match_end, hpin]
      · simp [match_end_watcher_step, h, hme]

/-- A concrete unpinned lobby entry with one connection, match ended. -/
def exLobbyEntry : LobbyEntry :=
  { is_pinned := false, active_connections := 1, server_state := .MatchEnded }

/-- A registry map holding the concrete entry under lobby id `"arena"`. -/
def exLobbyMap : LobbyMap := [("arena", exLobbyEntry)]

/-- Witness for `lobby_removed_only_when_empty_unpinned_match_ended` on the
concrete one-lobby registry. -/
theorem lobby_removed_only_when_empty_unpinned_match_ended_witness :
    lookupLobby exLobbyMap "arena" = some exLobbyEntry ∧
    (((register_disconnect exLobbyMap "arena").2 = true →
      exLobbyEntry.active_connections - 1 = 0 ∧ exLobbyEntry.is_pinned = false ∧
        exLobbyEntry.server_state = .MatchEnded) ∧
    ((match_end_watcher_step exLobbyMap "arena").2 = true →
      exLobbyEntry.active_connections = 0 ∧ exLobbyEntry.is_pinned = false ∧
        exLobbyEntry.server_state = .MatchEnded) ∧
    (exLobbyEntry.is_pinned = true →
      (lookupLobby (register_disconnect exLobbyMap "arena").1 "arena").isSome = true ∧
      (lookupLobby (match_end_watcher_step exLobbyMap "arena").1 "arena").isSome = true)) :=
  ⟨by decide,
   lobby_removed_only_when_empty_unpinned_match_ended exLobbyMap "arena" exLobbyEntry
     (by decide)⟩

theorem world_task_step_state_tick (cfg : WorldCfg) (env : ℕ → ℕ)
    (events : List GameEvent) (st : WorldState) (clk : ℕ) :
    (world_task_step cfg env events st clk).1.tick = st.tick + 1 := rfl

theorem world_task_step_update_tick (cfg : WorldCfg) (env : ℕ → ℕ)
    (events : List GameEvent) (st : WorldState) (clk : ℕ) :
    (world_task_step cfg env events st clk).2.2.tick = st.tick + 1 := rfl

theorem world_task_run_ticks (cfg : WorldCfg) (env : ℕ → ℕ) :
    ∀ (ticks : List (List GameEvent)) (st : WorldState) (clk : ℕ),
      ((world_task_run cfg env ticks st clk).2.2).map WorldUpdate.tick =
        List.range' (st.tick + 1) ticks.length := by
  intro ticks
  induction ticks with
  | nil => intro st clk; rfl
  | cons evs rest ih =>
    intro st clk
    simp only [world_task_run, List.map_cons, List.length_cons, List.range']
    rw [world_task_step_update_tick, ih, world_task_step_state_tick]

/-- Claim C5: over any run of the `world_task` loop from its initial state, the
published snapshots carry ticks `1, 2, 3, ...` — the first snapshot has
`tick = 1` and each successive snapshot's tick is the previous one plus 1. -/
theorem snapshot_ticks_start_at_one_and_increment :
    ∀ (cfg : WorldCfg) (env : ℕ → ℕ) (ticks : List (List GameEvent)),
      ((world_task_run cfg env ticks initialWorldState 0).2.2).map WorldUpdate.tick =
        List.range' 1 ticks.length := by
  intro cfg env ticks
  exact world_task_run_ticks cfg env ticks initialWorldState 0

/-- The invariant of interest for snapshots: every alive entity in the list
has strictly positive hp. -/
def entitiesOK (es : List SimEntity) : Prop :=
  ∀ e ∈ es, e.alive = true → 0 < e.hp

theorem applyHit_ok (cfg : ProjectileConfig) (e : SimEntity) :
    (applyHit cfg e).alive = true → 0 < (applyHit cfg e).hp := by
  by_cases hc : e.hp - cfg.damage ≤ 0
  · intro h
    have hfalse : (applyHit cfg e).alive = false := by
      simp [applyHit, hc]
    rw [hfalse] at h
    cases h
  · intro _
    have hhp : (applyHit cfg e).hp = e.hp - cfg.damage := by
      simp [applyHit, hc]
    rw [hhp]
    omega

theorem collideFirst_ok (cfg : ProjectileConfig) (p : SimProjectile) :
    ∀ (es es' : List SimEntity), collideFirst cfg p es = some es' →
      entitiesOK es → entitiesOK es' := by
  intro es
  induction es with
  | nil => intro es' h; cases h
  | cons e rest ih =>
    intro es' h hok
    by_cases ht : hitTest cfg p e = true
    · simp only [collideFirst] at h
      rw [if_pos ht] at h
      have h' := Option.some.inj h
      subst h'
      intro x hx
      rcases List.mem_cons.mp hx with hx1 | hx2
      · subst hx1
        exact applyHit_ok cfg e
      · exact hok x (List.mem_cons_of_mem _ hx2)
    · simp only [collideFirst] at h
      rw [if_neg ht] at h
      rcases Option.map_eq_some'.mp h with ⟨rest', hr, heq⟩
      subst heq
      intro x hx
      rcases List.mem_cons.mp hx with hx1 | hx2
      · subst hx1
        exact hok x (List.mem_cons_self _ _)
      · exact ih rest' hr (fun y hy => hok y (List.mem_cons_of_mem _ hy)) x hx2

theorem collideProjectiles_ok (cfg : ProjectileConfig) :
    ∀ (ps : List SimProjectile) (es : List SimEntity),
      entitiesOK es → entitiesOK (collideProjectiles cfg ps es).1 := by
  intro ps
  induction ps with
  | nil => intro es h; exact h
  | cons p rest ih =>
    intro es h
    by_cases httl : p.ttl ≤ 0
    · simp only [collideProjectiles, if_pos httl]
      exact ih es h
    · rcases hcf : collideFirst cfg p es with _ | es'
      · simp only [collideProjectiles, if_neg httl, hcf]
        exact ih es h
      · simp only [collideProjectiles, if_neg httl, hcf]
        exact ih es' (collideFirst_ok cfg p es es' hcf h)

theorem spawnStep_fst_hp_alive (cfg : ProjectileConfig) (dt : ℚ) (tr : Trig)
    (e : SimEntity) (nid : ℕ) :
    (spawnStep cfg dt tr e nid).1.hp = e.hp ∧
      (spawnStep cfg dt tr e nid).1.alive = e.alive := by
  unfold spawnStep
  split
  · exact ⟨rfl, rfl⟩
  · dsimp only
    split
    · exact ⟨rfl, rfl⟩
    · exact ⟨rfl, rfl⟩

theorem spawnProjectiles_ok (cfg : ProjectileConfig) (dt : ℚ) (tr : Trig) :
    ∀ (es : List SimEntity) (nid : ℕ), entitiesOK es →
      entitiesOK (spawnProjectiles cfg dt tr es nid).1 := by
  intro es
  induction es with
  | nil => intro nid h; exact h
  | cons e rest ih =>
    intro nid h x hx
    simp only [spawnProjectiles] at hx
    rcases List.mem_cons.mp hx with hx1 | hx2
    · subst hx1
      have hh := spawnStep_fst_hp_alive cfg dt tr e nid
      intro halive
      rw [hh.1]
      apply h e (List.mem_cons_self _ _)
      rw [← hh.2]
      exact halive
    · exact ih _ (fun y hy => h y (List.mem_cons_of_mem _ hy)) x hx2

theorem tick_projectiles_ok (cfg : ProjectileConfig) (dt : ℚ) (tr : Trig)
    (es : List SimEntity) (ps : List SimProjectile) (nid : ℕ)
    (h : entitiesOK es) :
    entitiesOK (tick_projectiles cfg dt tr es ps nid).1 := by
  unfold tick_projectiles
  exact collideProjectiles_ok cfg _ _ (spawnProjectiles_ok cfg dt tr es nid h)

theorem updateFirstInput_ok :
    ∀ (es : List SimEntity) (pid : ℕ) (inp : PlayerInput), entitiesOK es →
      entitiesOK (applyEvent.updateFirstInput es pid inp) := by
  intro es
  induction es with
  | nil => intro pid inp h; exact h
  | cons e rest ih =>
    intro pid inp h x hx
    simp only [applyEvent.updateFirstInput] at hx
    by_cases hid : e.id = pid
    · rw [if_pos hid] at hx
      rcases List.mem_cons.mp hx with hx1 | hx2
      · subst hx1
        exact h e (List.mem_cons_self _ _)
      · exact h x (List.mem_cons_of_mem _ hx2)
    · rw [if_neg hid] at hx
      rcases List.mem_cons.mp hx with hx1 | hx2
      · rw [hx1]
        exact h e (List.mem_cons_self _ _)
      · exact ih pid inp (fun y hy => h y (List.mem_cons_of_mem _ hy)) x hx2

theorem applyEvent_ok (cfg : WorldCfg) (env : ℕ → ℕ) (hmax : 0 < cfg.player_max_hp)
    (s : List SimEntity × List SimProjectile × ℕ) (ev : GameEvent)
    (h : entitiesOK s.1) : entitiesOK (applyEvent cfg env s ev).1 := by
  obtain ⟨es, ps, clk⟩ := s
  cases ev with
  | Join pid =>
    intro x hx
    simp only [applyEvent] at hx
    rcases List.mem_append.mp hx with hx1 | hx2
    · exact h x hx1
    · have hx3 := List.mem_singleton.mp hx2
      subst hx3
      intro _
      exact hmax
  | Leave pid =>
    intro x hx
    simp only [applyEvent] at hx
    exact h x (List.mem_of_mem_filter hx)
  | Input pid inp =>
    exact updateFirstInput_ok es pid inp h

theorem drainEvents_ok (cfg : WorldCfg) (env : ℕ → ℕ) (hmax : 0 < cfg.player_max_hp) :
    ∀ (events : List GameEvent) (s : List SimEntity × List SimProjectile × ℕ),
      entitiesOK s.1 → entitiesOK (drainEvents cfg env events s).1 := by
  intro events
  induction events with
  | nil => intro s h; exact h
  | cons ev rest ih =>
    intro s h
    exact ih _ (applyEvent_ok cfg env hmax s ev h)

theorem advanceEntity_ok (cfg : WorldCfg) (env : ℕ → ℕ) (e : SimEntity) (clk : ℕ)
    (hmax : 0 < cfg.player_max_hp) (he : e.alive = true → 0 < e.hp) :
    (advanceEntity cfg env e clk).1.alive = true →
      0 < (advanceEntity cfg env e clk).1.hp := by
  unfold advanceEntity
  by_cases ha : e.alive = true
  · rw [if_pos ha]
    intro _
    have h1 : (tick_entity cfg.trig e cfg.dt cfg.movement).hp = e.hp := rfl
    rw [h1]
    exact he ha
  · rw [if_neg ha]
    dsimp only
    split
    · intro _
      exact hmax
    · intro hal
      exact absurd hal ha

theorem advanceEntities_ok (cfg : WorldCfg) (env : ℕ → ℕ) (hmax : 0 < cfg.player_max_hp) :
    ∀ (es : List SimEntity) (clk : ℕ), entitiesOK es →
      entitiesOK (advanceEntities cfg env es clk).1 := by
  intro es
  induction es with
  | nil => intro clk h; exact h
  | cons e rest ih =>
    intro clk h x hx
    simp only [advanceEntities] at hx
    rcases List.mem_cons.mp hx with hx1 | hx2
    · subst hx1
      exact advanceEntity_ok cfg env e clk hmax (h e (List.mem_cons_self _ _))
    · exact ih _ (fun y hy => h y (List.mem_cons_of_mem _ hy)) x hx2

theorem snapshot_of_ok (es : List SimEntity) (h : entitiesOK es) :
    ∀ s ∈ (es.filter (fun e => e.alive)).map EntitySnapshot.ofEntity,
      0 < s.hp ∧ ∃ e : SimEntity, e.alive = true ∧ 0 < e.hp ∧
        EntitySnapshot.ofEntity e = s := by
  intro s hs
  rcases List.mem_map.mp hs with ⟨e, hef, rfl⟩
  have hmem := (List.mem_filter.mp hef).1
  have hal : e.alive = true := by simpa using (List.mem_filter.mp hef).2
  have hhp := h e hmem hal
  exact ⟨hhp, e, hal, hhp, rfl⟩

theorem world_task_step_ok (cfg : WorldCfg) (env : ℕ → ℕ)
    (hmax : 0 < cfg.player_max_hp) (events : List GameEvent) (st : WorldState)
    (clk : ℕ) (h : entitiesOK st.entities) :
    entitiesOK (world_task_step cfg env events st clk).1.entities ∧
    ∀ s ∈ (world_task_step cfg env events st clk).2.2.entities,
      0 < s.hp ∧ ∃ e : SimEntity, e.alive = true ∧ 0 < e.hp ∧
        EntitySnapshot.ofEntity e = s := by
  have hdr := drainEvents_ok cfg env hmax events (st.entities, st.projectiles, clk) h
  have hadv := advanceEntities_ok cfg env hmax
    (drainEvents cfg env events (st.entities, st.projectiles, clk)).1
    (drainEvents cfg env events (st.entities, st.projectiles, clk)).2.2 hdr
  have hproj := tick_projectiles_ok cfg.projectile cfg.dt cfg.trig
    (advanceEntities cfg env
      (drainEvents cfg env events (st.entities, st.projectiles, clk)).1
      (drainEvents cfg env events (st.entities, st.projectiles, clk)).2.2).1
    (drainEvents cfg env events (st.entities, st.projectiles, clk)).2.1
    st.next_projectile_id hadv
  exact ⟨hproj, snapshot_of_ok _ hproj⟩

theorem world_task_run_ok (cfg : WorldCfg) (env : ℕ → ℕ)
    (hmax : 0 < cfg.player_max_hp) :
    ∀ (ticks : List (List GameEvent)) (st : WorldState) (clk : ℕ),
      entitiesOK st.entities →
      entitiesOK (world_task_run cfg env ticks st clk).1.entities ∧
      ∀ u ∈ (world_task_run cfg env ticks st clk).2.2, ∀ s ∈ u.entities,
        0 < s.hp ∧ ∃ e : SimEntity, e.alive = true ∧ 0 < e.hp ∧
          EntitySnapshot.ofEntity e = s := by
  intro ticks
  induction ticks with
  | nil =>
    intro st clk h
    exact ⟨h, by intro u hu; cases hu⟩
  | cons evs rest ih =>
    intro st clk h
    have hstep := world_task_step_ok cfg env hmax evs st clk h
    have hrun := ih (world_task_step cfg env evs st clk).1
      (world_task_step cfg env evs st clk).2.1 hstep.1
    refine ⟨hrun.1, ?_⟩
    intro u hu
    simp only [world_task_run] at hu
    rcases List.mem_cons.mp hu with hu1 | hu2
    · rw [hu1]
      exact hstep.2
    · exact hrun.2 u hu2

/-- Claim C4: in every `WorldSnapshot` published over any run of the worker
from its initial state (for any positive max-hp tuning), every published
entity has `hp > 0` and stems from an entity that is alive at publication
time; and a hit that drives hp to or below 0 clamps hp to 0 and marks the
entity dead in the same step. -/
theorem snapshot_entities_alive_with_positive_hp (cfg : WorldCfg) (env : ℕ → ℕ)
    (ticks : List (List GameEvent)) (hmax : 0 < cfg.player_max_hp) :
    (∀ u ∈ (world_task_run cfg env ticks initialWorldState 0).2.2,
      ∀ s ∈ u.entities, 0 < s.hp ∧ ∃ e : SimEntity, e.alive = true ∧ 0 < e.hp ∧
        EntitySnapshot.ofEntity e = s) ∧
    (∀ (pc : ProjectileConfig) (e : SimEntity), e.hp - pc.damage ≤ 0 →
      (applyHit pc e).hp = 0 ∧ (applyHit pc e).alive = false) := by
  constructor
  · exact (world_task_run_ok cfg env hmax ticks initialWorldState 0
      (by intro e he; cases he)).2
  · intro pc e hle
    constructor
    · simp [applyHit, hle]
    · simp [applyHit, hle]

/-- The snapshot of the single entity spawned by `Join 1` at time 0. -/
def exSnapshot : EntitySnapshot := { id := 1, x := -400, y := -230, rot := 0, hp := 100 }

/-- The snapshot published on the first tick of the example run. -/
def exUpdate : WorldUpdate := { tick := 1, entities := [exSnapshot], projectiles := [] }

/-- An alive entity whose hp is below the projectile damage. -/
def exVictim : SimEntity :=
  { id := 2, x := 0, y := 0, rot := 0, hp := 20, alive := true, respawn_timer := 0,
    throttle := 0, last_input := neutralInput, shoot_cooldown := 0 }

theorem exRun_snapshots :
    (world_task_run exWorldCfg exEnv [[GameEvent.Join 1]] initialWorldState 0).2.2 =
      [exUpdate] := by
  norm_num [world_task_run, world_task_step, drainEvents, applyEvent, advanceEntities,
    advanceEntity, tick_entity, wrap_entity, tick_projectiles, spawnProjectiles,
    spawnStep, collideProjectiles, integrateProjectile, initialWorldState, exWorldCfg,
    exMovement, exProjectileCfg, exTrig, exEnv, neutralInput, exUpdate, exSnapshot,
    EntitySnapshot.ofEntity, List.foldl_cons, List.foldl_nil, min_def, max_def]

/-- Witness for `snapshot_entities_alive_with_positive_hp` on a one-tick run
with a single `Join`. -/
theorem snapshot_entities_alive_with_positive_hp_witness :
    0 < exWorldCfg.player_max_hp ∧
    exUpdate ∈ (world_task_run exWorldCfg exEnv [[.Join 1]] initialWorldState 0).2.2 ∧
    exSnapshot ∈ exUpdate.entities ∧
    exVictim.hp - exProjectileCfg.damage ≤ 0 ∧
    (0 < exSnapshot.hp ∧ ∃ e : SimEntity, e.alive = true ∧ 0 < e.hp ∧
      EntitySnapshot.ofEntity e = exSnapshot) ∧
    ((applyHit exProjectileCfg exVictim).hp = 0 ∧
      (applyHit exProjectileCfg exVictim).alive = false) :=
  ⟨by decide,
   by rw [exRun_snapshots]; exact List.mem_singleton.mpr rfl,
   List.mem_singleton.mpr rfl,
   by decide,
   (snapshot_entities_alive_with_positive_hp exWorldCfg exEnv [[.Join 1]]
     (by decide)).1 exUpdate
     (by rw [exRun_snapshots]; exact List.mem_singleton.mpr rfl)
     exSnapshot (List.mem_singleton.mpr rfl),
   (snapshot_entities_alive_with_positive_hp exWorldCfg exEnv [[.Join 1]]
     (by decide)).2 exProjectileCfg exVictim (by decide)⟩

theorem F32.clamp_unit_finiteWithin (x : F32) (hx : x.isFinite = true) :
    (x.clamp (-1) 1).finiteWithin (-1) 1 = true := by
  cases x with
  | finite v =>
    simp only [F32.clamp, F32.finiteWithin, Bool.and_eq_true, decide_eq_true_eq]
    constructor
    · exact le_min (by norm_num) (le_max_left _ _)
    · exact min_le_left _ _
  | nan => cases hx
  | posInf => cases hx
  | negInf => cases hx

/-- Claim C8: every input event the handler forwards into the worker's input
sink carries thrust and turn values that are finite and clamped into
`[-1, 1]` — `sanitize_input` drops non-finite inputs and clamps both fields
before `process_input_message` forwards the event. -/
theorem forwarded_inputs_finite_and_clamped
    (send : SendOutcome) (input sanitized : PlayerInputRaw)
    (h : (process_input_message send input).1 = some sanitized) :
    sanitized.thrust.finiteWithin (-1) 1 = true ∧
      sanitized.turn.finiteWithin (-1) 1 = true := by
  by_cases hfin : (!input.thrust.isFinite || !input.turn.isFinite) = true
  · exfalso
    simp [process_input_message, sanitize_input, hfin] at h
  · have hth : input.thrust.isFinite = true := by
      rcases Bool.not_eq_true _ ▸ hfin with _
      simp only [Bool.or_eq_true, Bool.not_eq_true'] at hfin
      cases hth : input.thrust.isFinite
      · exact absurd (Or.inl (by simp [hth])) hfin
      · rfl
    have htu : input.turn.isFinite = true := by
      simp only [Bool.or_eq_true, Bool.not_eq_true'] at hfin
      cases htu : input.turn.isFinite
      · exact absurd (Or.inr (by simp [htu])) hfin
      · rfl
    have hs : sanitize_input input = some
        { input with thrust := input.thrust.clamp (-1) 1,
                     turn := input.turn.clamp (-1) 1 } := by
      simp [sanitize_input, hth, htu]
    cases send with
    | ok =>
      simp only [process_input_message, hs] at h
      have h' := Option.some.inj h
      subst h'
      exact ⟨F32.clamp_unit_finiteWithin _ hth, F32.clamp_unit_finiteWithin _ htu⟩
    | full => simp [process_input_message, hs] at h
    | closed => simp [process_input_message, hs] at h

/-- A raw input with out-of-range finite values. -/
def exRawInput : PlayerInputRaw := { thrust := .finite 5, turn := .finite (-9), shoot := true }

/-- The sanitized form of `exRawInput`: both fields clamped into `[-1, 1]`. -/
def exSanitized : PlayerInputRaw := { thrust := .finite 1, turn := .finite (-1), shoot := true }

/-- Witness for `forwarded_inputs_finite_and_clamped` at a concrete
out-of-range input forwarded with a successful `try_send`. -/
theorem forwarded_inputs_finite_and_clamped_witness :
    (process_input_message .ok exRawInput).1 = some exSanitized ∧
    (exSanitized.thrust.finiteWithin (-1) 1 = true ∧
      exSanitized.turn.finiteWithin (-1) 1 = true) :=
  ⟨by decide, forwarded_inputs_finite_and_clamped .ok exRawInput exSanitized (by decide)⟩
